import Mathlib

/-!
Shallow embedding of the `DiskManager` page store from
`crates/storage/src/disk/disk_manager.rs`, together with the error type of
`crates/error/src/error.rs`, and proofs about its input/output contract.

Modelling conventions:
* Machine integers (`u64`) are `Nat` with an explicit `% 2 ^ 64` where the
  source wraps, and `checked_mul` is an explicit bound test.
* The backing file is a size plus a byte function; positions at or past the
  size read back as the zero holes the OS exposes once the file grows over
  them.
* The `BufReader` / `BufWriter` pair over the cloned descriptor is modelled by
  a reader cursor `rpos` and a writer cursor `wpos` with its buffered bytes
  `wbuf`.  `BufReader`'s own read-ahead buffer carries no observable state
  because every `read` begins with a `seek`, which discards it.
* Each fallible OS call (seek, write_all, flush, read_exact) consults an
  injection oracle `inj : Nat → Option String` at a strictly increasing clock
  `k`; `some msg` makes that call fail with an I/O error carrying `msg`,
  mirroring `impl From<std::io::Error> for Error`.  A failed call is modelled
  as having no effect on the state it was about to change.
* Byte values are plain `Nat`s; nothing in the contract depends on them being
  below 256.
-/

set_option maxRecDepth 6000

def PAGE_SIZE_BYTES : Nat := 4096

def U64_LIMIT : Nat := 2 ^ 64

/-- The error enum of `crates/error/src/error.rs`.  The source constructor
`Error::IO` is rendered `IOErr` here because `IO` is a builtin Lean name. -/
inductive Error where
  | InvalidData (msg : String)
  | InvalidInput (msg : String)
  | IOErr (msg : String)
  | ArithmeticOverflow
  | OutOfBounds
deriving DecidableEq

instance {ε α : Type} [DecidableEq ε] [DecidableEq α] : DecidableEq (Except ε α) := fun x y =>
  match x, y with
  | Except.ok a, Except.ok b =>
      if h : a = b then Decidable.isTrue (by rw [h])
      else Decidable.isFalse (by intro hc; cases hc; exact h rfl)
  | Except.error a, Except.error b =>
      if h : a = b then Decidable.isTrue (by rw [h])
      else Decidable.isFalse (by intro hc; cases hc; exact h rfl)
  | Except.ok _, Except.error _ => Decidable.isFalse (by intro hc; cases hc)
  | Except.error _, Except.ok _ => Decidable.isFalse (by intro hc; cases hc)

/-- Modelled from the spec: the `errdata!` macro lives in the error crate's
`macros` module, which is not among the sources; per the spec ("fails with
`InvalidData`", the variant for "invalid data, typically decoding errors or
unexpected internal values") it wraps its message in `InvalidData`. -/
def errdata (msg : String) : Error := Error.InvalidData msg

/-- The backing file: current length plus byte contents, read through
`File.byte`. -/
structure File where
  size : Nat
  data : Nat → Nat

/-- The byte visible at position `i`: stored contents inside the file,
zero holes at or past the end. -/
def File.byte (f : File) (i : Nat) : Nat :=
  if i < f.size then f.data i else 0

/-- Positioned write of `buf` at `off`: grows the file when the write ends
past the current size (intervening unwritten positions read back as zero
holes).  A zero-length write issues no OS call and leaves the file untouched,
as `BufWriter::flush` does with an empty buffer. -/
def File.writeAt (f : File) (off : Nat) (buf : List Nat) : File :=
  if buf.isEmpty then f
  else
    { size := max f.size (off + buf.length)
      data := fun i =>
        if off ≤ i ∧ i < off + buf.length then buf.getD (i - off) 0 else f.byte i }

/-- Positioned exact read of `len` bytes at `off`: `read_exact` fails with
`UnexpectedEof` (a short read) when the range sticks out past the end of the
file. -/
def File.readAt (f : File) (off len : Nat) : Option (List Nat) :=
  if off + len ≤ f.size then some ((List.range len).map fun i => f.byte (off + i))
  else none

/-- The injection oracle deciding the fate of each fallible OS call: `none`
lets call number `k` succeed, `some msg` makes it fail with message `msg`. -/
abbrev Inj := Nat → Option String

/-- The oracle under which every OS call succeeds. -/
def noInj : Inj := fun _ => none

/-- State of a `DiskManager`: the `AtomicU64` allocation counter, the backing
file, the `BufWriter` cursor and buffer, and the `BufReader` cursor. -/
structure DiskManager where
  last_allocated_pid : Nat
  file : File
  wpos : Nat
  wbuf : List Nat
  rpos : Nat

/-- `const EMPTY_BUFFER: &[u8] = &[0; PAGE_SIZE_BYTES];` -/
def EMPTY_BUFFER : List Nat := List.replicate PAGE_SIZE_BYTES 0

/-- `self.writer.seek(SeekFrom::Start(off))`: `BufWriter::seek` flushes any
buffered bytes at the current cursor, then repositions. -/
def DiskManager.wseek (inj : Inj) (k : Nat) (dm : DiskManager) (off : Nat) :
    Except Error Unit × DiskManager × Nat :=
  match inj k with
  | some msg => (Except.error (Error.IOErr msg), dm, k + 1)
  | none =>
      (Except.ok (),
       { dm with file := dm.file.writeAt dm.wpos dm.wbuf, wpos := off, wbuf := [] },
       k + 1)

/-- `self.writer.write_all(data)`: appends to the `BufWriter` buffer (the
buffer is always drained by the flush that follows in `write`, so the
capacity-triggered partial drain is unobservable). -/
def DiskManager.wwrite_all (inj : Inj) (k : Nat) (dm : DiskManager) (data : List Nat) :
    Except Error Unit × DiskManager × Nat :=
  match inj k with
  | some msg => (Except.error (Error.IOErr msg), dm, k + 1)
  | none => (Except.ok (), { dm with wbuf := dm.wbuf ++ data }, k + 1)

/-- `self.writer.flush()`: drains the buffered bytes into the file at the
writer cursor. -/
def DiskManager.wflush (inj : Inj) (k : Nat) (dm : DiskManager) :
    Except Error Unit × DiskManager × Nat :=
  match inj k with
  | some msg => (Except.error (Error.IOErr msg), dm, k + 1)
  | none =>
      (Except.ok (),
       { dm with file := dm.file.writeAt dm.wpos dm.wbuf,
                 wpos := dm.wpos + dm.wbuf.length, wbuf := [] },
       k + 1)

/-- `self.reader.seek(SeekFrom::Start(off))`: repositions the reader and
discards `BufReader`'s read-ahead buffer. -/
def DiskManager.rseek (inj : Inj) (k : Nat) (dm : DiskManager) (off : Nat) :
    Except Error Unit × DiskManager × Nat :=
  match inj k with
  | some msg => (Except.error (Error.IOErr msg), dm, k + 1)
  | none => (Except.ok (), { dm with rpos := off }, k + 1)

/-- `self.reader.read_exact(&mut bytes)` for a buffer of `len` bytes: the
structural failure is the short read at end of file, whose
`std::io::Error` displays as "failed to fill whole buffer". -/
def DiskManager.rread_exact (inj : Inj) (k : Nat) (dm : DiskManager) (len : Nat) :
    Except Error (List Nat) × DiskManager × Nat :=
  match inj k with
  | some msg => (Except.error (Error.IOErr msg), dm, k + 1)
  | none =>
      match dm.file.readAt dm.rpos len with
      | some bytes => (Except.ok bytes, { dm with rpos := dm.rpos + len }, k + 1)
      | none => (Except.error (Error.IOErr "failed to fill whole buffer"), dm, k + 1)

/-- `DiskManager::calculate_offset`: `page_id.checked_mul(PAGE_SIZE_BYTES as
u64)`, failing with `ArithmeticOverflow` when the `u64` product would wrap. -/
def DiskManager.calculate_offset (page_id : Nat) : Except Error Nat :=
  if page_id * PAGE_SIZE_BYTES < U64_LIMIT then Except.ok (page_id * PAGE_SIZE_BYTES)
  else Except.error Error.ArithmeticOverflow

/-- `DiskManager::write`: rejects oversized buffers, then seeks, writes and
flushes on the writer path. -/
def DiskManager.write (inj : Inj) (k : Nat) (dm : DiskManager)
    (page_id : Nat) (data : List Nat) : Except Error Unit × DiskManager × Nat :=
  if data.length > PAGE_SIZE_BYTES then
    (Except.error (errdata "Page data must fit in a page."), dm, k)
  else
    match DiskManager.calculate_offset page_id with
    | Except.error e => (Except.error e, dm, k)
    | Except.ok offset =>
        match DiskManager.wseek inj k dm offset with
        | (Except.error e, dm1, k1) => (Except.error e, dm1, k1)
        | (Except.ok _, dm1, k1) =>
            match DiskManager.wwrite_all inj k1 dm1 data with
            | (Except.error e, dm2, k2) => (Except.error e, dm2, k2)
            | (Except.ok _, dm2, k2) =>
                match DiskManager.wflush inj k2 dm2 with
                | (Except.error e, dm3, k3) => (Except.error e, dm3, k3)
                | (Except.ok _, dm3, k3) => (Except.ok (), dm3, k3)

/-- `DiskManager::read`: computes the offset, seeks the reader there and reads
exactly one page. -/
def DiskManager.read (inj : Inj) (k : Nat) (dm : DiskManager) (page_id : Nat) :
    Except Error (List Nat) × DiskManager × Nat :=
  match DiskManager.calculate_offset page_id with
  | Except.error e => (Except.error e, dm, k)
  | Except.ok offset =>
      match DiskManager.rseek inj k dm offset with
      | (Except.error e, dm1, k1) => (Except.error e, dm1, k1)
      | (Except.ok _, dm1, k1) => DiskManager.rread_exact inj k1 dm1 PAGE_SIZE_BYTES

/-- `DiskManager::allocate_page`: `1 + fetch_add(1)` on the counter (wrapping
`u64` arithmetic), then the eager zero-initialising write of the new page.
The counter update happens before the write and is never rolled back. -/
def DiskManager.allocate_page (inj : Inj) (k : Nat) (dm : DiskManager) :
    Except Error Nat × DiskManager × Nat :=
  match DiskManager.write inj k
      { dm with last_allocated_pid := (dm.last_allocated_pid + 1) % U64_LIMIT }
      ((1 + dm.last_allocated_pid) % U64_LIMIT) EMPTY_BUFFER with
  | (Except.error e, dm1, k1) => (Except.error e, dm1, k1)
  | (Except.ok _, dm1, k1) => (Except.ok ((1 + dm.last_allocated_pid) % U64_LIMIT), dm1, k1)

/-- Outcome of `DiskManager::new`, which can panic (its `.expect` calls) as
well as return a typed error. -/
inductive NewResult where
  | ok (dm : DiskManager)
  | err (e : Error)
  | panic (msg : String)

/-- `DiskManager::new`: opens (or creates) the backing file whose current
contents are `f`, clones the descriptor, then eagerly writes the zero page at
offset 0.  Failures of `open` and `try_clone` hit `.expect` and panic (the
panic message is modelled without the interpolated path); only the initial
page write propagates a typed error via `?`.  OS call clocks: 0 = open,
1 = try_clone, 2.. = the page-0 write. -/
def DiskManager.new (inj : Inj) (f : File) : NewResult :=
  match inj 0 with
  | some _ => NewResult.panic "Unable to create or open file."
  | none =>
      match inj 1 with
      | some _ => NewResult.panic "Unable to clone reader for file."
      | none =>
          let dm : DiskManager :=
            { last_allocated_pid := 0, file := f, wpos := 0, wbuf := [], rpos := 0 }
          match DiskManager.write inj 2 dm 0 EMPTY_BUFFER with
          | (Except.error e, _, _) => NewResult.err e
          | (Except.ok _, dm1, _) => NewResult.ok dm1

/-- Iterated allocation: runs `allocate_page` `n` times, collecting the `n`
results in order. -/
def DiskManager.allocList (inj : Inj) (k : Nat) (dm : DiskManager) :
    Nat → List (Except Error Nat) × DiskManager × Nat
  | 0 => ([], dm, k)
  | n + 1 =>
      let a := DiskManager.allocate_page inj k dm
      let b := DiskManager.allocList inj a.2.2 a.2.1 n
      (a.1 :: b.1, b.2.1, b.2.2)

/-- The all-zero file behind a freshly created database file. -/
def emptyFile : File := { size := 0, data := fun _ => 0 }

/-- The in-memory state `DiskManager::new` builds before its page-0 write. -/
def dmFresh : DiskManager :=
  { last_allocated_pid := 0, file := emptyFile, wpos := 0, wbuf := [], rpos := 0 }

/-- The store produced by `DiskManager::new` over a fresh file under the
benign oracle: counter 0, a file holding one zero page, drained writer buffer
(see `new_dmA`). -/
def dmA : DiskManager :=
  { last_allocated_pid := 0, file := emptyFile.writeAt 0 EMPTY_BUFFER,
    wpos := PAGE_SIZE_BYTES, wbuf := [], rpos := 0 }

/-! ### Basic lemmas about the file model -/

theorem File.writeAt_nil (f : File) (off : Nat) : f.writeAt off [] = f := rfl

theorem File.byte_writeAt (f : File) (off : Nat) (buf : List Nat) (i : Nat) :
    (f.writeAt off buf).byte i =
      if off ≤ i ∧ i < off + buf.length then buf.getD (i - off) 0 else f.byte i := by
  unfold File.writeAt
  split
  · next hb =>
      have hb0 : buf.length = 0 := by
        cases buf with
        | nil => rfl
        | cons b bs => simp [List.isEmpty] at hb
      rw [if_neg (by omega)]
  · next hb =>
      unfold File.byte
      dsimp only
      by_cases hc : off ≤ i ∧ i < off + buf.length
      · rw [if_pos hc, if_pos (by omega : i < max f.size (off + buf.length))]
      · rw [if_neg hc]
        by_cases hlt : i < max f.size (off + buf.length)
        · rw [if_pos hlt]
        · rw [if_neg hlt]
          show 0 = if i < f.size then f.data i else 0
          rw [if_neg (by omega)]

theorem File.size_writeAt (f : File) (off : Nat) (buf : List Nat) :
    (f.writeAt off buf).size =
      if buf.isEmpty then f.size else max f.size (off + buf.length) := by
  unfold File.writeAt
  split
  · rfl
  · rfl

theorem File.size_le_writeAt (f : File) (off : Nat) (buf : List Nat) :
    f.size ≤ (f.writeAt off buf).size := by
  rw [File.size_writeAt]
  split
  · exact Nat.le_refl _
  · exact Nat.le_max_left _ _

theorem File.end_le_size_writeAt (f : File) (off : Nat) (buf : List Nat)
    (h : buf ≠ []) : off + buf.length ≤ (f.writeAt off buf).size := by
  rw [File.size_writeAt, if_neg (by simpa using h)]
  exact Nat.le_max_right _ _

/-! ### List helper lemmas -/

theorem getD_range_map (g : Nat → Nat) {n i : Nat} (h : i < n) :
    ((List.range n).map g).getD i 0 = g i := by
  rw [List.getD_eq_getElem?_getD, List.getElem?_map, List.getElem?_range h]
  rfl

theorem range_map_getD (l : List Nat) :
    (List.range l.length).map (fun i => l.getD i 0) = l := by
  induction l with
  | nil => rfl
  | cons a t ih =>
      rw [List.length_cons, List.range_succ_eq_map, List.map_cons, List.map_map]
      have h1 : ((fun i => (a :: t).getD i 0) ∘ Nat.succ) = fun i => t.getD i 0 := by
        funext i
        simp [List.getD_cons_succ]
      simp only [List.getD_cons_zero, h1, ih]

theorem take_range_map (g : Nat → Nat) {m n : Nat} (h : m ≤ n) :
    ((List.range n).map g).take m = (List.range m).map g := by
  rw [← List.map_take, List.take_range, Nat.min_eq_left h]

theorem mul_page_lt_iff (x : Nat) : x * PAGE_SIZE_BYTES < U64_LIMIT ↔ x < 2 ^ 52 := by
  show x * 4096 < 2 ^ 64 ↔ x < 2 ^ 52
  rw [show (2 : Nat) ^ 64 = 2 ^ 52 * 4096 by norm_num]
  exact Nat.mul_lt_mul_right (by norm_num)

/-! ### Characterisations of the `DiskManager` operations -/

theorem DiskManager.write_ok_eq (inj : Inj) (k : Nat) (dm : DiskManager)
    (p : Nat) (data : List Nat)
    (hlen : data.length ≤ PAGE_SIZE_BYTES) (hoff : p * PAGE_SIZE_BYTES < U64_LIMIT)
    (h0 : inj k = none) (h1 : inj (k + 1) = none) (h2 : inj (k + 2) = none) :
    DiskManager.write inj k dm p data =
      (Except.ok (),
       { dm with
           file := (dm.file.writeAt dm.wpos dm.wbuf).writeAt (p * PAGE_SIZE_BYTES) data,
           wpos := p * PAGE_SIZE_BYTES + data.length,
           wbuf := [] }, k + 3) := by
  simp [DiskManager.write, DiskManager.calculate_offset, DiskManager.wseek,
    DiskManager.wwrite_all, DiskManager.wflush, h0, h1, h2, hoff,
    if_neg (by omega : ¬ data.length > PAGE_SIZE_BYTES)]

theorem DiskManager.write_ok_inv (inj : Inj) (k : Nat) (dm : DiskManager)
    (p : Nat) (data : List Nat)
    (h : (DiskManager.write inj k dm p data).1 = Except.ok ()) :
    data.length ≤ PAGE_SIZE_BYTES ∧ p * PAGE_SIZE_BYTES < U64_LIMIT ∧
    inj k = none ∧ inj (k + 1) = none ∧ inj (k + 2) = none := by
  by_cases hlen : data.length > PAGE_SIZE_BYTES
  · rw [DiskManager.write, if_pos hlen] at h
    cases h
  · by_cases hoff : p * PAGE_SIZE_BYTES < U64_LIMIT
    · rcases h0 : inj k with _ | msg
      · rcases h1 : inj (k + 1) with _ | msg
        · rcases h2 : inj (k + 2) with _ | msg
          · exact ⟨by omega, hoff, by simp [h0], by simp [h1], by simp [h2]⟩
          · simp [DiskManager.write, DiskManager.calculate_offset, DiskManager.wseek,
              DiskManager.wwrite_all, DiskManager.wflush, hlen, hoff, h0, h1, h2] at h
        · simp [DiskManager.write, DiskManager.calculate_offset, DiskManager.wseek,
            DiskManager.wwrite_all, DiskManager.wflush, hlen, hoff, h0, h1] at h
      · simp [DiskManager.write, DiskManager.calculate_offset, DiskManager.wseek,
          hlen, hoff, h0] at h
    · simp [DiskManager.write, DiskManager.calculate_offset, hlen, hoff] at h

theorem DiskManager.write_seek_fail (inj : Inj) (k : Nat) (dm : DiskManager)
    (p : Nat) (data : List Nat) (msg : String)
    (hlen : data.length ≤ PAGE_SIZE_BYTES) (hoff : p * PAGE_SIZE_BYTES < U64_LIMIT)
    (h0 : inj k = some msg) :
    DiskManager.write inj k dm p data = (Except.error (Error.IOErr msg), dm, k + 1) := by
  simp [DiskManager.write, DiskManager.calculate_offset, DiskManager.wseek,
    hoff, h0, if_neg (by omega : ¬ data.length > PAGE_SIZE_BYTES)]

theorem DiskManager.write_writeall_fail (inj : Inj) (k : Nat) (dm : DiskManager)
    (p : Nat) (data : List Nat) (msg : String)
    (hlen : data.length ≤ PAGE_SIZE_BYTES) (hoff : p * PAGE_SIZE_BYTES < U64_LIMIT)
    (h0 : inj k = none) (h1 : inj (k + 1) = some msg) :
    DiskManager.write inj k dm p data =
      (Except.error (Error.IOErr msg),
       { dm with file := dm.file.writeAt dm.wpos dm.wbuf,
                 wpos := p * PAGE_SIZE_BYTES, wbuf := [] }, k + 2) := by
  simp [DiskManager.write, DiskManager.calculate_offset, DiskManager.wseek,
    DiskManager.wwrite_all, hoff, h0, h1,
    if_neg (by omega : ¬ data.length > PAGE_SIZE_BYTES)]

theorem DiskManager.write_flush_fail (inj : Inj) (k : Nat) (dm : DiskManager)
    (p : Nat) (data : List Nat) (msg : String)
    (hlen : data.length ≤ PAGE_SIZE_BYTES) (hoff : p * PAGE_SIZE_BYTES < U64_LIMIT)
    (h0 : inj k = none) (h1 : inj (k + 1) = none) (h2 : inj (k + 2) = some msg) :
    DiskManager.write inj k dm p data =
      (Except.error (Error.IOErr msg),
       { dm with file := dm.file.writeAt dm.wpos dm.wbuf,
                 wpos := p * PAGE_SIZE_BYTES, wbuf := data }, k + 3) := by
  simp [DiskManager.write, DiskManager.calculate_offset, DiskManager.wseek,
    DiskManager.wwrite_all, DiskManager.wflush, hoff, h0, h1, h2,
    if_neg (by omega : ¬ data.length > PAGE_SIZE_BYTES)]

theorem map_range_zero (g : Nat → Nat) (n : Nat) (hz : ∀ i, i < n → g i = 0) :
    (List.range n).map g = List.replicate n 0 := by
  induction n with
  | zero => rfl
  | succ m ih =>
      rw [List.range_succ, List.map_append, List.replicate_succ']
      rw [ih fun i h => hz i (Nat.lt_succ_of_lt h)]
      simp [hz m (Nat.lt_succ_self m)]

theorem EMPTY_BUFFER_length : EMPTY_BUFFER.length = PAGE_SIZE_BYTES := by
  simp [EMPTY_BUFFER]

theorem EMPTY_BUFFER_ne_nil : EMPTY_BUFFER ≠ [] := by
  intro h
  have hlen := congrArg List.length h
  rw [EMPTY_BUFFER_length] at hlen
  simp [PAGE_SIZE_BYTES] at hlen

theorem EMPTY_BUFFER_getD (i : Nat) : EMPTY_BUFFER.getD i 0 = 0 := by
  unfold EMPTY_BUFFER
  by_cases h : i < PAGE_SIZE_BYTES
  · rw [List.getD_eq_getElem?_getD, List.getElem?_replicate]
    simp [h]
  · rw [List.getD_eq_getElem?_getD, List.getElem?_eq_none]
    · rfl
    · simp; omega

theorem DiskManager.read_ok_eq (inj : Inj) (k : Nat) (dm : DiskManager) (p : Nat)
    (hoff : p * PAGE_SIZE_BYTES < U64_LIMIT)
    (h0 : inj k = none) (h1 : inj (k + 1) = none)
    (hsz : p * PAGE_SIZE_BYTES + PAGE_SIZE_BYTES ≤ dm.file.size) :
    DiskManager.read inj k dm p =
      (Except.ok ((List.range PAGE_SIZE_BYTES).map fun i =>
          dm.file.byte (p * PAGE_SIZE_BYTES + i)),
       { dm with rpos := p * PAGE_SIZE_BYTES + PAGE_SIZE_BYTES }, k + 2) := by
  unfold DiskManager.read DiskManager.calculate_offset DiskManager.rseek
    DiskManager.rread_exact
  rw [if_pos hoff]
  dsimp only
  rw [h0]
  dsimp only
  rw [h1]
  dsimp only
  unfold File.readAt
  rw [if_pos hsz]

theorem DiskManager.read_seek_fail (inj : Inj) (k : Nat) (dm : DiskManager) (p : Nat)
    (msg : String) (hoff : p * PAGE_SIZE_BYTES < U64_LIMIT) (h0 : inj k = some msg) :
    DiskManager.read inj k dm p = (Except.error (Error.IOErr msg), dm, k + 1) := by
  simp [DiskManager.read, DiskManager.calculate_offset, DiskManager.rseek, hoff, h0]

theorem DiskManager.read_short (inj : Inj) (k : Nat) (dm : DiskManager) (p : Nat)
    (hoff : p * PAGE_SIZE_BYTES < U64_LIMIT)
    (h0 : inj k = none) (h1 : inj (k + 1) = none)
    (hsz : dm.file.size < p * PAGE_SIZE_BYTES + PAGE_SIZE_BYTES) :
    DiskManager.read inj k dm p =
      (Except.error (Error.IOErr "failed to fill whole buffer"),
       { dm with rpos := p * PAGE_SIZE_BYTES }, k + 2) := by
  have hlt : ¬ (p * PAGE_SIZE_BYTES + PAGE_SIZE_BYTES ≤ dm.file.size) := by omega
  simp [DiskManager.read, DiskManager.calculate_offset, DiskManager.rseek,
    DiskManager.rread_exact, File.readAt, hoff, h0, h1, hlt]

theorem DiskManager.read_rexact_fail (inj : Inj) (k : Nat) (dm : DiskManager) (p : Nat)
    (msg : String) (hoff : p * PAGE_SIZE_BYTES < U64_LIMIT)
    (h0 : inj k = none) (h1 : inj (k + 1) = some msg) :
    DiskManager.read inj k dm p =
      (Except.error (Error.IOErr msg), { dm with rpos := p * PAGE_SIZE_BYTES }, k + 2) := by
  simp [DiskManager.read, DiskManager.calculate_offset, DiskManager.rseek,
    DiskManager.rread_exact, hoff, h0, h1]

theorem DiskManager.read_offset_fail (inj : Inj) (k : Nat) (dm : DiskManager) (p : Nat)
    (hoff : ¬ p * PAGE_SIZE_BYTES < U64_LIMIT) :
    DiskManager.read inj k dm p = (Except.error Error.ArithmeticOverflow, dm, k) := by
  simp [DiskManager.read, DiskManager.calculate_offset, hoff]

theorem DiskManager.read_preserves (inj : Inj) (k : Nat) (dm : DiskManager) (p : Nat) :
    (DiskManager.read inj k dm p).2.1.file = dm.file ∧
    (DiskManager.read inj k dm p).2.1.last_allocated_pid = dm.last_allocated_pid ∧
    (DiskManager.read inj k dm p).2.1.wpos = dm.wpos ∧
    (DiskManager.read inj k dm p).2.1.wbuf = dm.wbuf := by
  by_cases hoff : p * PAGE_SIZE_BYTES < U64_LIMIT
  · rcases h0 : inj k with _ | msg
    · rcases h1 : inj (k + 1) with _ | msg
      · by_cases hsz : p * PAGE_SIZE_BYTES + PAGE_SIZE_BYTES ≤ dm.file.size
        · rw [DiskManager.read_ok_eq inj k dm p hoff h0 h1 hsz]
          exact ⟨rfl, rfl, rfl, rfl⟩
        · rw [DiskManager.read_short inj k dm p hoff h0 h1 (by omega)]
          exact ⟨rfl, rfl, rfl, rfl⟩
      · rw [DiskManager.read_rexact_fail inj k dm p msg hoff h0 h1]
        exact ⟨rfl, rfl, rfl, rfl⟩
    · rw [DiskManager.read_seek_fail inj k dm p msg hoff h0]
      exact ⟨rfl, rfl, rfl, rfl⟩
  · rw [DiskManager.read_offset_fail inj k dm p hoff]
    exact ⟨rfl, rfl, rfl, rfl⟩

theorem read_all_zero (k : Nat) (dm : DiskManager) (p : Nat)
    (hoff : p * PAGE_SIZE_BYTES < U64_LIMIT)
    (hsz : p * PAGE_SIZE_BYTES + PAGE_SIZE_BYTES ≤ dm.file.size)
    (hz : ∀ i, i < PAGE_SIZE_BYTES → dm.file.byte (p * PAGE_SIZE_BYTES + i) = 0) :
    (DiskManager.read noInj k dm p).1 = Except.ok (List.replicate PAGE_SIZE_BYTES 0) := by
  rw [DiskManager.read_ok_eq noInj k dm p hoff rfl rfl hsz]
  dsimp only
  rw [map_range_zero _ _ hz]

theorem pow52_lt_pow64 : (2 : Nat) ^ 52 < 2 ^ 64 := by norm_num

theorem DiskManager.allocate_ok_eq (inj : Inj) (k : Nat) (dm : DiskManager)
    (hpid : dm.last_allocated_pid + 1 < 2 ^ 52)
    (h0 : inj k = none) (h1 : inj (k + 1) = none) (h2 : inj (k + 2) = none) :
    DiskManager.allocate_page inj k dm =
      (Except.ok (dm.last_allocated_pid + 1),
       { dm with last_allocated_pid := dm.last_allocated_pid + 1,
                 file := (dm.file.writeAt dm.wpos dm.wbuf).writeAt
                     ((dm.last_allocated_pid + 1) * PAGE_SIZE_BYTES) EMPTY_BUFFER,
                 wpos := (dm.last_allocated_pid + 1) * PAGE_SIZE_BYTES + PAGE_SIZE_BYTES,
                 wbuf := [] }, k + 3) := by
  have h52 := pow52_lt_pow64
  have hmod2 : (dm.last_allocated_pid + 1) % U64_LIMIT = dm.last_allocated_pid + 1 :=
    Nat.mod_eq_of_lt (by unfold U64_LIMIT; omega)
  have hmod1 : (1 + dm.last_allocated_pid) % U64_LIMIT = dm.last_allocated_pid + 1 := by
    rw [Nat.add_comm]
    exact hmod2
  have hoff : (dm.last_allocated_pid + 1) * PAGE_SIZE_BYTES < U64_LIMIT :=
    (mul_page_lt_iff _).mpr hpid
  unfold DiskManager.allocate_page
  rw [hmod1, hmod2]
  rw [DiskManager.write_ok_eq inj k _ _ _ (le_of_eq EMPTY_BUFFER_length) hoff h0 h1 h2]
  dsimp only
  rw [EMPTY_BUFFER_length]

theorem DiskManager.allocate_ok_inv (inj : Inj) (k : Nat) (dm : DiskManager) (p : Nat)
    (h : (DiskManager.allocate_page inj k dm).1 = Except.ok p) :
    p = (1 + dm.last_allocated_pid) % U64_LIMIT ∧
    p * PAGE_SIZE_BYTES < U64_LIMIT ∧
    inj k = none ∧ inj (k + 1) = none ∧ inj (k + 2) = none ∧
    DiskManager.allocate_page inj k dm =
      (Except.ok p,
       { dm with last_allocated_pid := (dm.last_allocated_pid + 1) % U64_LIMIT,
                 file := (dm.file.writeAt dm.wpos dm.wbuf).writeAt
                     (p * PAGE_SIZE_BYTES) EMPTY_BUFFER,
                 wpos := p * PAGE_SIZE_BYTES + PAGE_SIZE_BYTES,
                 wbuf := [] }, k + 3) := by
  rcases hw : DiskManager.write inj k
      { dm with last_allocated_pid := (dm.last_allocated_pid + 1) % U64_LIMIT }
      ((1 + dm.last_allocated_pid) % U64_LIMIT) EMPTY_BUFFER with ⟨r, dmw, kw⟩
  unfold DiskManager.allocate_page at h ⊢
  rw [hw] at h ⊢
  cases r with
  | error e => cases h
  | ok u =>
      dsimp only at h
      injection h with hp
      subst hp
      obtain ⟨hlen, hoff, h0, h1, h2⟩ :=
        DiskManager.write_ok_inv inj k _ _ _ (by rw [hw])
      have heq := DiskManager.write_ok_eq inj k
        { dm with last_allocated_pid := (dm.last_allocated_pid + 1) % U64_LIMIT }
        ((1 + dm.last_allocated_pid) % U64_LIMIT) EMPTY_BUFFER hlen hoff h0 h1 h2
      rw [hw] at heq
      have hsnd : (dmw, kw) =
          ({ dm with last_allocated_pid := (dm.last_allocated_pid + 1) % U64_LIMIT,
                     file := (dm.file.writeAt dm.wpos dm.wbuf).writeAt
                         ((1 + dm.last_allocated_pid) % U64_LIMIT * PAGE_SIZE_BYTES) EMPTY_BUFFER,
                     wpos := (1 + dm.last_allocated_pid) % U64_LIMIT * PAGE_SIZE_BYTES
                       + EMPTY_BUFFER.length,
                     wbuf := [] }, k + 3) := congrArg Prod.snd heq
      rw [EMPTY_BUFFER_length] at hsnd
      refine ⟨rfl, hoff, h0, h1, h2, ?_⟩
      dsimp only
      rw [hsnd]

theorem DiskManager.allocate_flush_fail (inj : Inj) (k : Nat) (dm : DiskManager)
    (msg : String) (hpid : dm.last_allocated_pid + 1 < 2 ^ 52)
    (h0 : inj k = none) (h1 : inj (k + 1) = none) (h2 : inj (k + 2) = some msg) :
    DiskManager.allocate_page inj k dm =
      (Except.error (Error.IOErr msg),
       { dm with last_allocated_pid := dm.last_allocated_pid + 1,
                 file := dm.file.writeAt dm.wpos dm.wbuf,
                 wpos := (dm.last_allocated_pid + 1) * PAGE_SIZE_BYTES,
                 wbuf := EMPTY_BUFFER }, k + 3) := by
  have h52 := pow52_lt_pow64
  have hmod2 : (dm.last_allocated_pid + 1) % U64_LIMIT = dm.last_allocated_pid + 1 :=
    Nat.mod_eq_of_lt (by unfold U64_LIMIT; omega)
  have hmod1 : (1 + dm.last_allocated_pid) % U64_LIMIT = dm.last_allocated_pid + 1 := by
    rw [Nat.add_comm]
    exact hmod2
  have hoff : (dm.last_allocated_pid + 1) * PAGE_SIZE_BYTES < U64_LIMIT :=
    (mul_page_lt_iff _).mpr hpid
  have hlen : ¬ (EMPTY_BUFFER.length > PAGE_SIZE_BYTES) := by
    rw [EMPTY_BUFFER_length]
    omega
  unfold DiskManager.allocate_page
  rw [hmod1, hmod2]
  simp [DiskManager.write, DiskManager.calculate_offset, DiskManager.wseek,
    DiskManager.wwrite_all, DiskManager.wflush, EMPTY_BUFFER_length, hlen, hoff, h0, h1, h2]

theorem DiskManager.new_ok_inv (inj : Inj) (f : File) (dm : DiskManager)
    (h : DiskManager.new inj f = NewResult.ok dm) :
    dm = { last_allocated_pid := 0, file := f.writeAt 0 EMPTY_BUFFER,
           wpos := PAGE_SIZE_BYTES, wbuf := [], rpos := 0 } := by
  unfold DiskManager.new at h
  rcases h0 : inj 0 with _ | m
  · rw [h0] at h
    dsimp only at h
    rcases h1 : inj 1 with _ | m
    · rw [h1] at h
      dsimp only at h
      have hlen : EMPTY_BUFFER.length ≤ PAGE_SIZE_BYTES := le_of_eq EMPTY_BUFFER_length
      have hoff : 0 * PAGE_SIZE_BYTES < U64_LIMIT := by
        rw [Nat.zero_mul]
        unfold U64_LIMIT
        norm_num
      rcases h2 : inj 2 with _ | m2
      · rcases h3 : inj 3 with _ | m3
        · rcases h4 : inj 4 with _ | m4
          · rw [DiskManager.write_ok_eq inj 2 _ 0 EMPTY_BUFFER hlen hoff h2 h3 h4] at h
            dsimp only at h
            injection h with h'
            rw [← h', File.writeAt_nil, EMPTY_BUFFER_length, Nat.zero_mul, Nat.zero_add]
          · rw [DiskManager.write_flush_fail inj 2 _ 0 EMPTY_BUFFER m4 hlen hoff h2 h3 h4] at h
            cases h
        · rw [DiskManager.write_writeall_fail inj 2 _ 0 EMPTY_BUFFER m3 hlen hoff h2 h3] at h
          cases h
      · rw [DiskManager.write_seek_fail inj 2 _ 0 EMPTY_BUFFER m2 hlen hoff h2] at h
        cases h
    · rw [h1] at h
      cases h
  · rw [h0] at h
    cases h

/-- Whether an allocation result is a success. -/
def isOkResult : Except Error Nat → Bool
  | Except.ok _ => true
  | Except.error _ => false

theorem DiskManager.allocList_succ (inj : Inj) (k : Nat) (dm : DiskManager) (n : Nat) :
    DiskManager.allocList inj k dm (n + 1) =
      ((DiskManager.allocate_page inj k dm).1 ::
        (DiskManager.allocList inj (DiskManager.allocate_page inj k dm).2.2
          (DiskManager.allocate_page inj k dm).2.1 n).1,
       (DiskManager.allocList inj (DiskManager.allocate_page inj k dm).2.2
          (DiskManager.allocate_page inj k dm).2.1 n).2.1,
       (DiskManager.allocList inj (DiskManager.allocate_page inj k dm).2.2
          (DiskManager.allocate_page inj k dm).2.1 n).2.2) := rfl

theorem allocList_ok_ids (inj : Inj) (n : Nat) : ∀ (k : Nat) (dm : DiskManager),
    dm.last_allocated_pid < 2 ^ 52 →
    (DiskManager.allocList inj k dm n).1.all isOkResult = true →
    (DiskManager.allocList inj k dm n).1 =
      (List.range' (dm.last_allocated_pid + 1) n).map Except.ok ∧
    (DiskManager.allocList inj k dm n).2.1.last_allocated_pid =
      dm.last_allocated_pid + n := by
  induction n with
  | zero =>
      intro k dm hb _
      exact ⟨rfl, rfl⟩
  | succ m ih =>
      intro k dm hb hall
      have h52 := pow52_lt_pow64
      rw [DiskManager.allocList_succ] at hall ⊢
      rcases hr : (DiskManager.allocate_page inj k dm).1 with e | p
      · rw [hr] at hall
        simp [isOkResult] at hall
      · obtain ⟨hp, hoff, h0, h1, h2, heq⟩ := DiskManager.allocate_ok_inv inj k dm p hr
        have hmod1 : (1 + dm.last_allocated_pid) % U64_LIMIT = dm.last_allocated_pid + 1 := by
          rw [Nat.add_comm]
          exact Nat.mod_eq_of_lt (by unfold U64_LIMIT; omega)
        have hpval : p = dm.last_allocated_pid + 1 := by rw [hp, hmod1]
        have hdm1pid : (DiskManager.allocate_page inj k dm).2.1.last_allocated_pid =
            dm.last_allocated_pid + 1 := by
          rw [heq]
          dsimp only
          exact Nat.mod_eq_of_lt (by unfold U64_LIMIT; omega)
        have hplt : dm.last_allocated_pid + 1 < 2 ^ 52 := by
          have := (mul_page_lt_iff p).mp hoff
          omega
        rw [hr] at hall
        simp only [List.all_cons, Bool.and_eq_true, isOkResult] at hall
        obtain ⟨_, hall'⟩ := hall
        obtain ⟨hids, hfinal⟩ := ih (DiskManager.allocate_page inj k dm).2.2
          (DiskManager.allocate_page inj k dm).2.1 (by rw [hdm1pid]; exact hplt) hall'
        constructor
        · dsimp only
          rw [hpval, List.range'_succ, List.map_cons, hids, hdm1pid]
        · dsimp only
          rw [hfinal, hdm1pid]
          omega

/-! ### The specification claims -/

/-- Injection oracle failing every OS call (used to exercise a failing open). -/
def injOpenFail : Inj := fun _ => some "permission denied"

/-- Injection oracle failing exactly the first OS call (a failing seek). -/
def injSeekFail : Inj := fun n => if n = 0 then some "boom" else none

/-- Injection oracle failing exactly the third OS call (the flush inside the
first write issued after clock 0). -/
def injFlushFail : Inj := fun n => if n = 2 then some "disk full" else none

/-- C5: `calculate_offset` is a pure function computing `p * page_size` by
checked multiplication: it returns the product whenever it is representable as
a `u64`, and fails with `ArithmeticOverflow` exactly when the product exceeds
the maximum representable `u64` offset. -/
theorem calculate_offset_spec (p : Nat) (hp : p < U64_LIMIT) :
    (p * PAGE_SIZE_BYTES < U64_LIMIT →
      DiskManager.calculate_offset p = Except.ok (p * PAGE_SIZE_BYTES)) ∧
    (DiskManager.calculate_offset p = Except.error Error.ArithmeticOverflow ↔
      U64_LIMIT ≤ p * PAGE_SIZE_BYTES) := by
  constructor
  · intro h
    simp [DiskManager.calculate_offset, h]
  · constructor
    · intro h
      by_contra hlt
      push_neg at hlt
      simp [DiskManager.calculate_offset, hlt] at h
    · intro h
      simp [DiskManager.calculate_offset]
      omega

/-- Witness for C5 at `p = 2 ^ 52`, the smallest page id whose offset
overflows. -/
theorem calculate_offset_spec_witness :
    ((2 : Nat) ^ 52 < U64_LIMIT) ∧
    (DiskManager.calculate_offset (2 ^ 52) = Except.error Error.ArithmeticOverflow ↔
      U64_LIMIT ≤ 2 ^ 52 * PAGE_SIZE_BYTES) :=
  ⟨by norm_num [U64_LIMIT],
   (calculate_offset_spec (2 ^ 52) (by norm_num [U64_LIMIT])).2⟩

/-- C4: `write` fails with `InvalidData` exactly when the buffer is strictly
larger than a page (a full-page buffer is accepted), and on that failure it
performs no OS call and leaves the whole store state (hence the on-disk page)
unmodified. -/
theorem write_invalid_data_spec (inj : Inj) (k : Nat) (dm : DiskManager)
    (p : Nat) (data : List Nat) :
    ((∃ msg, (DiskManager.write inj k dm p data).1 =
        Except.error (Error.InvalidData msg)) ↔ PAGE_SIZE_BYTES < data.length) ∧
    (PAGE_SIZE_BYTES < data.length →
      DiskManager.write inj k dm p data =
        (Except.error (errdata "Page data must fit in a page."), dm, k)) := by
  have hfail : PAGE_SIZE_BYTES < data.length →
      DiskManager.write inj k dm p data =
        (Except.error (errdata "Page data must fit in a page."), dm, k) := by
    intro h
    rw [DiskManager.write, if_pos h]
  refine ⟨⟨?_, ?_⟩, hfail⟩
  · rintro ⟨msg, hmsg⟩
    by_contra hgt
    push_neg at hgt
    by_cases hoff : p * PAGE_SIZE_BYTES < U64_LIMIT
    · rcases h0 : inj k with _ | m
      · rcases h1 : inj (k + 1) with _ | m
        · rcases h2 : inj (k + 2) with _ | m
          · rw [DiskManager.write_ok_eq inj k dm p data hgt hoff h0 h1 h2] at hmsg
            simp at hmsg
          · rw [DiskManager.write_flush_fail inj k dm p data m hgt hoff h0 h1 h2] at hmsg
            simp at hmsg
        · rw [DiskManager.write_writeall_fail inj k dm p data m hgt hoff h0 h1] at hmsg
          simp at hmsg
      · rw [DiskManager.write_seek_fail inj k dm p data m hgt hoff h0] at hmsg
        simp at hmsg
    · rw [DiskManager.write, if_neg (by omega : ¬ data.length > PAGE_SIZE_BYTES),
        DiskManager.calculate_offset, if_neg hoff] at hmsg
      simp at hmsg
  · intro h
    exact ⟨"Page data must fit in a page.", by rw [hfail h]; rfl⟩

/-- Witness for C4 at a 4097-byte buffer. -/
theorem write_invalid_data_spec_witness :
    PAGE_SIZE_BYTES < (List.replicate 4097 0).length ∧
    DiskManager.write noInj 0 dmFresh 0 (List.replicate 4097 0) =
      (Except.error (errdata "Page data must fit in a page."), dmFresh, 0) := by
  have hlen : PAGE_SIZE_BYTES < (List.replicate 4097 0).length := by
    rw [List.length_replicate]
    norm_num [PAGE_SIZE_BYTES]
  exact ⟨hlen,
    (write_invalid_data_spec noInj 0 dmFresh 0 (List.replicate 4097 0)).2 hlen⟩

/-- C8: after a successful `write` no written byte remains only in the
write-behind buffer: the `BufWriter` buffer has been drained and the supplied
bytes are in the backing file at the page's offset. -/
theorem write_flushes_spec (inj : Inj) (k : Nat) (dm : DiskManager)
    (p : Nat) (data : List Nat) (hb : dm.wbuf = [])
    (hw : (DiskManager.write inj k dm p data).1 = Except.ok ()) :
    (DiskManager.write inj k dm p data).2.1.wbuf = [] ∧
    (DiskManager.write inj k dm p data).2.1.file =
      dm.file.writeAt (p * PAGE_SIZE_BYTES) data ∧
    ∀ i, i < data.length →
      (DiskManager.write inj k dm p data).2.1.file.byte (p * PAGE_SIZE_BYTES + i) =
        data.getD i 0 := by
  obtain ⟨hlen, hoff, h0, h1, h2⟩ := DiskManager.write_ok_inv inj k dm p data hw
  rw [DiskManager.write_ok_eq inj k dm p data hlen hoff h0 h1 h2]
  dsimp only
  rw [hb, File.writeAt_nil]
  refine ⟨rfl, rfl, ?_⟩
  intro i hi
  rw [File.byte_writeAt, if_pos ⟨Nat.le_add_right _ _, by omega⟩,
    Nat.add_sub_cancel_left]

/-- Witness for C8: a three-byte write to page 0 of a fresh store. -/
theorem write_flushes_spec_witness :
    dmFresh.wbuf = [] ∧
    (DiskManager.write noInj 0 dmFresh 0 [1, 2, 3]).1 = Except.ok () ∧
    (DiskManager.write noInj 0 dmFresh 0 [1, 2, 3]).2.1.wbuf = [] := by
  have hw : (DiskManager.write noInj 0 dmFresh 0 [1, 2, 3]).1 = Except.ok () := by
    rw [DiskManager.write_ok_eq noInj 0 dmFresh 0 [1, 2, 3]
      (by norm_num [PAGE_SIZE_BYTES]) (by norm_num [U64_LIMIT]) rfl rfl rfl]
  exact ⟨rfl, hw, (write_flushes_spec noInj 0 dmFresh 0 [1, 2, 3] rfl hw).1⟩

/-- Opening a fresh (empty) file under the benign oracle yields exactly the
store `dmA`: counter 0 and one zero page on disk. -/
theorem new_dmA : DiskManager.new noInj emptyFile = NewResult.ok dmA := by
  unfold DiskManager.new
  have h0 : noInj 0 = none := rfl
  have h1 : noInj 1 = none := rfl
  rw [h0, h1]
  dsimp only
  rw [DiskManager.write_ok_eq noInj 2 _ 0 EMPTY_BUFFER (le_of_eq EMPTY_BUFFER_length)
    (by norm_num [U64_LIMIT]) rfl rfl rfl]
  dsimp only
  rw [File.writeAt_nil, Nat.zero_mul, Nat.zero_add, EMPTY_BUFFER_length]
  rfl

/-- C3: a successful open writes a full `page_size` all-zero page at offset 0,
overwriting whatever bytes the file previously held there, so reading page 0
of the freshly opened store returns exactly `page_size` zero bytes. -/
theorem new_zero_page_spec (inj : Inj) (f : File) (dm : DiskManager)
    (h : DiskManager.new inj f = NewResult.ok dm) :
    (∀ i, i < PAGE_SIZE_BYTES → dm.file.byte i = 0) ∧
    PAGE_SIZE_BYTES ≤ dm.file.size ∧
    (DiskManager.read noInj 0 dm 0).1 = Except.ok (List.replicate PAGE_SIZE_BYTES 0) := by
  have hdm := DiskManager.new_ok_inv inj f dm h
  subst hdm
  have hsz : PAGE_SIZE_BYTES ≤ (f.writeAt 0 EMPTY_BUFFER).size := by
    have hs := File.end_le_size_writeAt f 0 EMPTY_BUFFER EMPTY_BUFFER_ne_nil
    rw [EMPTY_BUFFER_length] at hs
    omega
  have hz : ∀ i, i < PAGE_SIZE_BYTES → (f.writeAt 0 EMPTY_BUFFER).byte i = 0 := by
    intro i hi
    rw [File.byte_writeAt,
      if_pos ⟨Nat.zero_le i, by rw [EMPTY_BUFFER_length]; omega⟩]
    exact EMPTY_BUFFER_getD _
  refine ⟨hz, hsz, ?_⟩
  apply read_all_zero
  · show 0 * PAGE_SIZE_BYTES < U64_LIMIT
    norm_num [U64_LIMIT]
  · show 0 * PAGE_SIZE_BYTES + PAGE_SIZE_BYTES ≤ (f.writeAt 0 EMPTY_BUFFER).size
    omega
  · intro i hi
    show (f.writeAt 0 EMPTY_BUFFER).byte (0 * PAGE_SIZE_BYTES + i) = 0
    rw [Nat.zero_mul, Nat.zero_add]
    exact hz i hi

/-- Witness for C3: the fresh store over an empty file. -/
theorem new_zero_page_spec_witness :
    DiskManager.new noInj emptyFile = NewResult.ok dmA ∧
    (DiskManager.read noInj 0 dmA 0).1 = Except.ok (List.replicate PAGE_SIZE_BYTES 0) :=
  ⟨new_dmA, (new_zero_page_spec noInj emptyFile dmA new_dmA).2.2⟩

/-- C7: a successful `read` returns a buffer of exactly `page_size` bytes;
`read` fails with an I/O error when positioning fails or fewer than
`page_size` bytes exist at the computed offset (a short read is an error,
never a partial result); and `read` never changes the backing file or the
allocation counter. -/
theorem read_spec (inj : Inj) (k : Nat) (dm : DiskManager) (p : Nat) :
    (∀ pg, (DiskManager.read inj k dm p).1 = Except.ok pg →
      pg.length = PAGE_SIZE_BYTES) ∧
    (p * PAGE_SIZE_BYTES < U64_LIMIT → ∀ msg, inj k = some msg →
      DiskManager.read inj k dm p = (Except.error (Error.IOErr msg), dm, k + 1)) ∧
    (p * PAGE_SIZE_BYTES < U64_LIMIT → inj k = none → inj (k + 1) = none →
      dm.file.size < p * PAGE_SIZE_BYTES + PAGE_SIZE_BYTES →
      (DiskManager.read inj k dm p).1 =
        Except.error (Error.IOErr "failed to fill whole buffer")) ∧
    (DiskManager.read inj k dm p).2.1.file = dm.file ∧
    (DiskManager.read inj k dm p).2.1.last_allocated_pid = dm.last_allocated_pid := by
  refine ⟨?_, ?_, ?_, (DiskManager.read_preserves inj k dm p).1,
    (DiskManager.read_preserves inj k dm p).2.1⟩
  · intro pg hpg
    by_cases hoff : p * PAGE_SIZE_BYTES < U64_LIMIT
    · rcases h0 : inj k with _ | m
      · rcases h1 : inj (k + 1) with _ | m
        · by_cases hsz : p * PAGE_SIZE_BYTES + PAGE_SIZE_BYTES ≤ dm.file.size
          · rw [DiskManager.read_ok_eq inj k dm p hoff h0 h1 hsz] at hpg
            dsimp only at hpg
            injection hpg with hpg'
            rw [← hpg']
            simp
          · rw [DiskManager.read_short inj k dm p hoff h0 h1 (by omega)] at hpg
            simp at hpg
        · rw [DiskManager.read_rexact_fail inj k dm p m hoff h0 h1] at hpg
          simp at hpg
      · rw [DiskManager.read_seek_fail inj k dm p m hoff h0] at hpg
        simp at hpg
    · rw [DiskManager.read_offset_fail inj k dm p hoff] at hpg
      simp at hpg
  · intro hoff msg h0
    exact DiskManager.read_seek_fail inj k dm p msg hoff h0
  · intro hoff h0 h1 hsz
    rw [DiskManager.read_short inj k dm p hoff h0 h1 hsz]

/-- Witness for C7: a failing positioning call surfaces as a typed I/O error. -/
theorem read_spec_witness :
    (0 * PAGE_SIZE_BYTES < U64_LIMIT) ∧
    DiskManager.read injSeekFail 0 dmFresh 0 =
      (Except.error (Error.IOErr "boom"), dmFresh, 1) :=
  ⟨by norm_num [U64_LIMIT],
   (read_spec injSeekFail 0 dmFresh 0).2.1 (by norm_num [U64_LIMIT]) "boom" rfl⟩

/-- C2: on a freshly opened store, any run of `allocate_page` calls that all
succeed returns exactly the page ids 1, 2, 3, ... in order (strictly
increasing, no gaps, starting at 1), and the counter ends at the number of
allocations, each call having returned the post-increment counter value. -/
theorem allocate_sequence_spec (inj : Inj) (f : File) (dm : DiskManager) (k n : Nat)
    (hnew : DiskManager.new inj f = NewResult.ok dm)
    (hok : (DiskManager.allocList inj k dm n).1.all isOkResult = true) :
    (DiskManager.allocList inj k dm n).1 = (List.range' 1 n).map Except.ok ∧
    (DiskManager.allocList inj k dm n).2.1.last_allocated_pid = n := by
  have hdm := DiskManager.new_ok_inv inj f dm hnew
  have hpid : dm.last_allocated_pid = 0 := by rw [hdm]
  obtain ⟨h1, h2⟩ := allocList_ok_ids inj n k dm (by rw [hpid]; norm_num) hok
  rw [hpid] at h1 h2
  rw [Nat.zero_add] at h1 h2
  exact ⟨h1, h2⟩

/-- Witness for C2: a single allocation on the fresh store returns id 1. -/
theorem allocate_sequence_spec_witness :
    DiskManager.new noInj emptyFile = NewResult.ok dmA ∧
    (DiskManager.allocList noInj 0 dmA 1).1 = (List.range' 1 1).map Except.ok := by
  have hok : (DiskManager.allocList noInj 0 dmA 1).1.all isOkResult = true := by
    rw [DiskManager.allocList_succ,
      DiskManager.allocate_ok_eq noInj 0 dmA (by norm_num [dmA]) rfl rfl rfl]
    rfl
  exact ⟨new_dmA, (allocate_sequence_spec noInj emptyFile dmA 0 1 new_dmA hok).1⟩


theorem EMPTY_BUFFER_isEmpty : EMPTY_BUFFER.isEmpty = false := by
  cases hE : EMPTY_BUFFER with
  | nil => exact absurd hE EMPTY_BUFFER_ne_nil
  | cons a l => rfl

/-- C1 is refuted on the code as stated: on the freshly opened store `dmA`,
the one-byte write `Write(1, [7])` succeeds (page 1 starts at the end of the
file), but the following `Read(1)` does not return a page at all — it fails
with the short-read I/O error, because only 1 of the page's 4096 bytes exists
on disk. -/
theorem write_then_read_cex :
    (DiskManager.write noInj 0 dmA 1 [7]).1 = Except.ok () ∧
    (DiskManager.read noInj 0 (DiskManager.write noInj 0 dmA 1 [7]).2.1 1).1 =
      Except.error (Error.IOErr "failed to fill whole buffer") := by
  have hoff : 1 * PAGE_SIZE_BYTES < U64_LIMIT := by norm_num [PAGE_SIZE_BYTES, U64_LIMIT]
  have hw := DiskManager.write_ok_eq noInj 0 dmA 1 [7]
    (by norm_num [PAGE_SIZE_BYTES]) hoff rfl rfl rfl
  have hwbuf : dmA.wbuf = ([] : List Nat) := rfl
  have hfile : dmA.file = emptyFile.writeAt 0 EMPTY_BUFFER := rfl
  constructor
  · rw [hw]
  · rw [hw]
    dsimp only
    rw [DiskManager.read_short noInj 0 _ 1 hoff rfl rfl ?_]
    dsimp only
    rw [hwbuf, File.writeAt_nil, hfile]
    simp only [File.size_writeAt, EMPTY_BUFFER_isEmpty, EMPTY_BUFFER_length]
    simp [emptyFile, PAGE_SIZE_BYTES]

/-- C1 (amended): a successful `Write(p, data)` followed by `Read(p)` returns
`data` in the prefix with the trailing bytes unchanged from the prior on-disk
contents, provided the page's full byte range lies within the file after the
write (otherwise the read fails with a short-read I/O error, as the
counterexample shows); the writer buffer must be drained on entry, as it is in
every state the store's operations produce. -/
theorem write_then_read_spec (inj : Inj) (k : Nat) (dm : DiskManager)
    (p : Nat) (data : List Nat) (hb : dm.wbuf = [])
    (hw : (DiskManager.write inj k dm p data).1 = Except.ok ())
    (hsz : p * PAGE_SIZE_BYTES + PAGE_SIZE_BYTES ≤
      (DiskManager.write inj k dm p data).2.1.file.size) :
    ∃ pg, (DiskManager.read noInj 0 (DiskManager.write inj k dm p data).2.1 p).1 =
        Except.ok pg ∧
      pg.length = PAGE_SIZE_BYTES ∧
      pg.take data.length = data ∧
      (∀ i, data.length ≤ i → i < PAGE_SIZE_BYTES →
        pg.getD i 0 = dm.file.byte (p * PAGE_SIZE_BYTES + i)) := by
  obtain ⟨hlen, hoff, h0, h1, h2⟩ := DiskManager.write_ok_inv inj k dm p data hw
  have heq := DiskManager.write_ok_eq inj k dm p data hlen hoff h0 h1 h2
  rw [heq] at hsz ⊢
  dsimp only at hsz ⊢
  rw [hb, File.writeAt_nil] at hsz ⊢
  rw [DiskManager.read_ok_eq noInj 0 _ p hoff rfl rfl hsz]
  dsimp only
  refine ⟨_, rfl, ?_, ?_, ?_⟩
  · simp
  · rw [take_range_map _ hlen]
    have hcong : ∀ i ∈ List.range data.length,
        (dm.file.writeAt (p * PAGE_SIZE_BYTES) data).byte (p * PAGE_SIZE_BYTES + i) =
          data.getD i 0 := by
      intro i hi
      rw [List.mem_range] at hi
      rw [File.byte_writeAt, if_pos ⟨Nat.le_add_right _ _, by omega⟩,
        Nat.add_sub_cancel_left]
    rw [List.map_congr_left hcong]
    exact range_map_getD data
  · intro i hge hlt
    rw [getD_range_map _ hlt]
    rw [File.byte_writeAt, if_neg (by omega)]

/-- Witness for C1 (amended): a full-page write to page 0 of the pre-open
store, whose read-back returns the page. -/
theorem write_then_read_spec_witness :
    dmFresh.wbuf = [] ∧
    (DiskManager.write noInj 0 dmFresh 0 EMPTY_BUFFER).1 = Except.ok () ∧
    ∃ pg, (DiskManager.read noInj 0
        (DiskManager.write noInj 0 dmFresh 0 EMPTY_BUFFER).2.1 0).1 = Except.ok pg ∧
      pg.length = PAGE_SIZE_BYTES ∧
      pg.take EMPTY_BUFFER.length = EMPTY_BUFFER ∧
      (∀ i, EMPTY_BUFFER.length ≤ i → i < PAGE_SIZE_BYTES →
        pg.getD i 0 = dmFresh.file.byte (0 * PAGE_SIZE_BYTES + i)) := by
  have hw_eq := DiskManager.write_ok_eq noInj 0 dmFresh 0 EMPTY_BUFFER
    (le_of_eq EMPTY_BUFFER_length) (by norm_num [U64_LIMIT]) rfl rfl rfl
  have hw1 : (DiskManager.write noInj 0 dmFresh 0 EMPTY_BUFFER).1 = Except.ok () := by
    rw [hw_eq]
  have hsz : 0 * PAGE_SIZE_BYTES + PAGE_SIZE_BYTES ≤
      (DiskManager.write noInj 0 dmFresh 0 EMPTY_BUFFER).2.1.file.size := by
    rw [hw_eq]
    dsimp only
    have hs := File.end_le_size_writeAt
      (dmFresh.file.writeAt dmFresh.wpos dmFresh.wbuf) (0 * PAGE_SIZE_BYTES)
      EMPTY_BUFFER EMPTY_BUFFER_ne_nil
    rw [EMPTY_BUFFER_length] at hs
    omega
  exact ⟨rfl, hw1, write_then_read_spec noInj 0 dmFresh 0 EMPTY_BUFFER rfl hw1 hsz⟩

/-- C9 is refuted on the code as stated: when the open call on the backing
file fails, `new` does not return a typed `IOError` value — it panics (the
`.expect` on `OpenOptions::open`). -/
theorem new_open_fail_cex :
    DiskManager.new injOpenFail emptyFile =
      NewResult.panic "Unable to create or open file." ∧
    DiskManager.new injOpenFail emptyFile ≠
      NewResult.err (Error.IOErr "permission denied") := by
  have h : DiskManager.new injOpenFail emptyFile =
      NewResult.panic "Unable to create or open file." := by
    unfold DiskManager.new
    have h0 : injOpenFail 0 = some "permission denied" := rfl
    rw [h0]
  refine ⟨h, ?_⟩
  rw [h]
  intro hc
  cases hc

/-- C9 (amended): on every path where the filesystem open/create call fails,
`new` panics with the `.expect` message "Unable to create or open file ..."
instead of returning a typed error value to the caller; only a failure of the
eager page-0 write is returned as a typed error. -/
theorem new_open_failure_panics (inj : Inj) (f : File) (msg : String)
    (h0 : inj 0 = some msg) :
    DiskManager.new inj f = NewResult.panic "Unable to create or open file." := by
  unfold DiskManager.new
  rw [h0]

/-- Witness for C9 (amended): an open that fails with "permission denied". -/
theorem new_open_failure_panics_witness :
    injOpenFail 0 = some "permission denied" ∧
    DiskManager.new injOpenFail emptyFile =
      NewResult.panic "Unable to create or open file." :=
  ⟨rfl, new_open_failure_panics injOpenFail emptyFile "permission denied" rfl⟩

/-- C10: when the zero-initialising write inside `allocate_page` fails, the
call returns the I/O error, but the counter was already incremented and is not
rolled back: the id that would have been returned is skipped, and the next
successful allocation returns the strictly larger next id. -/
theorem allocate_error_keeps_counter (inj : Inj) (k : Nat) (dm : DiskManager)
    (msg : String) (hpid : dm.last_allocated_pid + 2 < 2 ^ 52)
    (h0 : inj k = none) (h1 : inj (k + 1) = none) (h2 : inj (k + 2) = some msg) :
    (DiskManager.allocate_page inj k dm).1 = Except.error (Error.IOErr msg) ∧
    (DiskManager.allocate_page inj k dm).2.1.last_allocated_pid =
      dm.last_allocated_pid + 1 ∧
    (DiskManager.allocate_page noInj 0
        (DiskManager.allocate_page inj k dm).2.1).1 =
      Except.ok (dm.last_allocated_pid + 2) ∧
    dm.last_allocated_pid + 1 < dm.last_allocated_pid + 2 := by
  have hfail := DiskManager.allocate_flush_fail inj k dm msg (by omega) h0 h1 h2
  rw [hfail]
  refine ⟨rfl, rfl, ?_, by omega⟩
  dsimp only
  rw [DiskManager.allocate_ok_eq noInj 0 _ (by dsimp only; omega) rfl rfl rfl]

/-- Witness for C10: the flush of the first allocation fails with "disk full";
id 1 is skipped and the next allocation returns 2. -/
theorem allocate_error_keeps_counter_witness :
    (dmFresh.last_allocated_pid + 2 < 2 ^ 52) ∧
    injFlushFail 0 = none ∧ injFlushFail 1 = none ∧
    injFlushFail 2 = some "disk full" ∧
    (DiskManager.allocate_page injFlushFail 0 dmFresh).1 =
      Except.error (Error.IOErr "disk full") ∧
    (DiskManager.allocate_page noInj 0
        (DiskManager.allocate_page injFlushFail 0 dmFresh).2.1).1 = Except.ok 2 := by
  have hpid : dmFresh.last_allocated_pid + 2 < 2 ^ 52 := by norm_num [dmFresh]
  have h := allocate_error_keeps_counter injFlushFail 0 dmFresh "disk full" hpid rfl rfl rfl
  exact ⟨hpid, rfl, rfl, rfl, h.1, h.2.2.1⟩

/-- C6: every successful `allocate_page` call returning id `p` has
zero-initialised page `p` on disk before returning, so an immediate `read` of
`p` returns exactly `page_size` zero bytes. -/
theorem allocate_zero_page_spec (inj : Inj) (k : Nat) (dm : DiskManager) (p : Nat)
    (h : (DiskManager.allocate_page inj k dm).1 = Except.ok p) :
    (DiskManager.read noInj 0 (DiskManager.allocate_page inj k dm).2.1 p).1 =
      Except.ok (List.replicate PAGE_SIZE_BYTES 0) := by
  obtain ⟨hp, hoff, h0, h1, h2, heq⟩ := DiskManager.allocate_ok_inv inj k dm p h
  rw [heq]
  dsimp only
  apply read_all_zero
  · exact hoff
  · show p * PAGE_SIZE_BYTES + PAGE_SIZE_BYTES ≤
      ((dm.file.writeAt dm.wpos dm.wbuf).writeAt (p * PAGE_SIZE_BYTES) EMPTY_BUFFER).size
    have hs := File.end_le_size_writeAt (dm.file.writeAt dm.wpos dm.wbuf)
      (p * PAGE_SIZE_BYTES) EMPTY_BUFFER EMPTY_BUFFER_ne_nil
    rw [EMPTY_BUFFER_length] at hs
    exact hs
  · intro i hi
    show ((dm.file.writeAt dm.wpos dm.wbuf).writeAt (p * PAGE_SIZE_BYTES) EMPTY_BUFFER).byte
        (p * PAGE_SIZE_BYTES + i) = 0
    rw [File.byte_writeAt, EMPTY_BUFFER_length,
      if_pos ⟨Nat.le_add_right _ _, by omega⟩]
    exact EMPTY_BUFFER_getD _

/-- Witness for C6: the first allocation on the pre-open store returns id 1
and the page reads back as zeros. -/
theorem allocate_zero_page_spec_witness :
    (DiskManager.allocate_page noInj 0 dmFresh).1 = Except.ok 1 ∧
    (DiskManager.read noInj 0 (DiskManager.allocate_page noInj 0 dmFresh).2.1 1).1 =
      Except.ok (List.replicate PAGE_SIZE_BYTES 0) := by
  have h1 : (DiskManager.allocate_page noInj 0 dmFresh).1 = Except.ok 1 := by
    rw [DiskManager.allocate_ok_eq noInj 0 dmFresh (by norm_num [dmFresh]) rfl rfl rfl]
    rfl
  exact ⟨h1, allocate_zero_page_spec noInj 0 dmFresh 1 h1⟩
